import Mathlib

/-!
Verification of vsc-administration (hpcugent) against its specification.

Shallow embedding of the reconciliation core:
* `vsc/administration/slurm/sacct.py`: parsing of pipe-delimited sacct dumps;
* `bin/sync_slurm_acct.py`: sequential command execution;
* `vsc/administration/vo.py`: quota arithmetic (`_set_quota`, `_set_member_quota`),
  fileset creation (`_create_fileset`), quota selection (`set_scratch_quota`,
  `set_member_data_quota`), status transition (`update_vo_status`) and the
  per-VO reconciliation driver (`process_vos`);
* `vsc/administration/project.py`: `MukProject.create_scratch_fileset`.

Python exceptions are modelled with `Except PyErr`; the exception kinds that
the claims distinguish get their own constructor.
-/

/-- The Python exceptions the embedding distinguishes.  `runtimeError` stands
for the `RuntimeError` produced by a bare `raise` with no active exception. -/
inductive PyErr
  | typeError
  | indexError
  | runtimeError
  | sacctParse (msg : String)
  | voStatusUpdate
  | userStatusUpdate
  deriving DecidableEq, Repr

/-! ## Python string primitives

The source manipulates strings with `str.split`, `str.rstrip`, `str.replace`
and `os.path.dirname`.  They are embedded structurally over `List Char`
(`String` in this Lean version is a structure holding a `List Char`), so that
every definition reduces in the kernel. -/

/-- `str.split(sep)` for a one-character separator: `"".split(c) = [""]`,
and every occurrence of the separator starts a new chunk. -/
def splitOnChar (c : Char) : List Char → List (List Char)
  | [] => [[]]
  | x :: xs =>
    let r := splitOnChar c xs
    if x = c then [] :: r
    else
      match r with
      | y :: ys => (x :: y) :: ys
      | [] => [[x]]

/-- `line.split(sep)` on a `String`, for a one-character separator. -/
def pySplit (s : String) (c : Char) : List String :=
  (splitOnChar c s.data).map (fun l => ⟨l⟩)

/-- The whitespace characters stripped by Python's `str.rstrip()`. -/
def isPySpace (c : Char) : Bool :=
  c = ' ' || c = '\t' || c = '\n' || c = '\r' || c = '\x0b' || c = '\x0c'

/-- Python's `line.rstrip()`: drop trailing whitespace. -/
def pyRstrip (s : String) : String :=
  ⟨(s.data.reverse.dropWhile isPySpace).reverse⟩

/-- Replace every occurrence of the character `c` by the string `r`
(`str.replace` for a one-character pattern). -/
def replaceChar (c : Char) (r : List Char) : List Char → List Char
  | [] => []
  | x :: xs => if x = c then r ++ replaceChar c r xs else x :: replaceChar c r xs

/-! ## slurm/sacct.py -/

/-- The column names of the `sacct` jobs listing (`SacctJobsFields`). -/
def SacctJobsFields : List String :=
  ["JobID", "JobName", "Partition", "Account", "AllocCPUS", "State", "ExitCode"]

/-- `SlurmJobs = namedtuple_with_defaults('SlurmJobs', SacctJobsFields)`:
each field defaults to `None` (here `none`). -/
structure SlurmJobs where
  JobID : Option String := none
  JobName : Option String := none
  Partition : Option String := none
  Account : Option String := none
  AllocCPUS : Option String := none
  State : Option String := none
  ExitCode : Option String := none
  deriving DecidableEq, Repr

/-- Lookup in a Python `dict` built from an association list by repeated
assignment: the *last* binding of a key wins. -/
def dictLookup (d : List (String × String)) (k : String) : Option String :=
  ((d.filter (fun p => p.1 = k)).getLast?).map Prod.snd

/-- `mkSlurmJobs(dict)`: build the `SlurmJobs` named tuple from a dict.
A key that is not a field name raises `TypeError` (unexpected keyword
argument); missing fields keep their `None` default. -/
def mkSlurmJobs (d : List (String × String)) : Except PyErr SlurmJobs :=
  if d.all (fun p => decide (p.1 ∈ SacctJobsFields)) then
    .ok { JobID := dictLookup d "JobID", JobName := dictLookup d "JobName",
          Partition := dictLookup d "Partition", Account := dictLookup d "Account",
          AllocCPUS := dictLookup d "AllocCPUS", State := dictLookup d "State",
          ExitCode := dictLookup d "ExitCode" }
  else .error .typeError

/-- The `info_type` argument of `parse_slurm_sacct_line` is duck-typed in the
source: it is either the enum member `SacctTypes.jobs` or any other value
(the test passes the string `"doesnotexist"`). -/
inductive SacctSelector
  | jobs
  | other (v : String)
  deriving DecidableEq, Repr

/-- `parse_slurm_sacct_line(header, line, info_type)`: split the line on `|`,
pick the creator for the requested record type (only `jobs` exists; any other
selector raises `SacctParseException`) and zip header names with values into
the record.  `zip` truncates at the shorter list and `dict` keeps the last
binding of a repeated key.  The `some` wrapper records that the returned named
tuple is truthy (it has seven fields). -/
def parse_slurm_sacct_line (header : List String) (line : String)
    (info_type : SacctSelector) : Except PyErr (Option SlurmJobs) :=
  let fields := pySplit line '|'
  match info_type with
  | .jobs => (mkSlurmJobs (header.zip fields)).map some
  | .other v => .error (.sacctParse v)

/-- The header transformation of `parse_slurm_sacct_dump`:
`w.replace(' ', '_').replace('%', 'PCT_')` on each `|`-separated word of the
rstripped first line. -/
def pyHeaderWord (w : String) : String :=
  ⟨replaceChar '%' "PCT_".data (replaceChar ' ' "_".data w.data)⟩

/-- The header row of a dump: first line, rstripped, split on `|`, words
transformed by `pyHeaderWord`. -/
def pyHeader (l0 : String) : List String :=
  (pySplit (pyRstrip l0) '|').map pyHeaderWord

/-- The data-line loop of `parse_slurm_sacct_dump`: each line is rstripped and
parsed; an exception aborts the whole dump; a line parsed to `None` is
skipped (`if info:`); a record is added to the accumulating set (list without
duplicates, insertion order). -/
def dump_loop (parseLine : List String → String → Except PyErr (Option SlurmJobs))
    (header : List String) : List String → List SlurmJobs → Except PyErr (List SlurmJobs)
  | [], acc => .ok acc
  | l :: ls, acc =>
    match parseLine header (pyRstrip l) with
    | .error e => .error e
    | .ok none => dump_loop parseLine header ls acc
    | .ok (some r) => dump_loop parseLine header ls (if r ∈ acc then acc else acc ++ [r])

/-- `parse_slurm_sacct_dump(lines, info_type)`: header from `lines[0]`
(`IndexError` on an empty list), then the data-line loop on `lines[1:]`. -/
def parse_slurm_sacct_dump (lines : List String) (info_type : SacctSelector) :
    Except PyErr (List SlurmJobs) :=
  match lines with
  | [] => .error .indexError
  | l0 :: rest =>
    dump_loop (fun h l => parse_slurm_sacct_line h l info_type) (pyHeader l0) rest []

/-- Modelled from the spec: the accounting-sync line parser for dumps holding
several record types (`slurm/sync.py`, referenced by the spec but not part of
the provided sources).  `applies` decides whether a data line belongs to the
requested record type; a line of an unrequested record type "parses to
nothing" (`None`), every other line is zipped against the header as in
`parse_slurm_sacct_line`. -/
def parse_acct_line_m (applies : String → Bool) (header : List String)
    (line : String) : Except PyErr (Option SlurmJobs) :=
  let fields := pySplit line '|'
  if applies line then (mkSlurmJobs (header.zip fields)).map some
  else .ok none

/-- Modelled from the spec: the dump parser for multi-record-type listings.
Identical loop to `parse_slurm_sacct_dump`, with the multi-type line parser. -/
def parse_acct_dump_m (applies : String → Bool) (lines : List String) :
    Except PyErr (List SlurmJobs) :=
  match lines with
  | [] => .error .indexError
  | l0 :: rest => dump_loop (parse_acct_line_m applies) (pyHeader l0) rest []

/-! ## bin/sync_slurm_acct.py -/

/-- `execute_commands(commands)`: run each command in order via `RunQA.run`;
on the first non-zero exit code raise `SacctMgrException` and stop.  `run_ec`
gives the exit code of each command; the result is the list of commands that
were actually executed, in execution order, together with the command the
exception was raised on (if any). -/
def execute_commands (run_ec : String → Int) : List String → List String × Option String
  | [] => ([], none)
  | c :: rest =>
    if run_ec c ≠ 0 then ([c], some c)
    else
      let r := execute_commands run_ec rest
      (c :: r.1, r.2)

/-! ## vo.py: quota arithmetic (`_set_quota`, `_set_member_quota`) -/

/-- The backend calls the embedded fragments can issue.  Quota values carry
the exact numbers passed to the call. -/
inductive FsOp
  | list_filesets
  | get_fileset_info_op (fsys name : String)
  | make_dir (path : String)
  | make_fileset (path name : String) (parent : Option String)
  | chmod (mode : Nat) (path : String)
  | chown (uid gid : Nat) (path : String)
  | set_fileset_quota (soft : Int) (path name : String) (hard : Option Int)
  | set_fileset_grace (path : String)
  | set_user_quota (soft : Int) (user : Nat) (path : String) (hard : Int)
  | create_stat_directory (path : String) (mode uid gid : Nat)
  deriving DecidableEq, Repr

/-- Python's `int()` on a rational value: truncation toward zero. -/
def pyIntOfRat (x : ℚ) : ℤ :=
  if 0 ≤ x then ⌊x⌋ else ⌈x⌉

/-- The body of `VscTier2AccountpageVo._set_quota` after the storage lookup:
`hard = quota * 1024` (KiB to bytes), multiplied by the data replication
factor exactly when the backend is `'gpfs'`; `soft = int(hard *
quota_soft_fraction)`; then `set_fileset_quota(soft, path, fileset_name,
hard)` and `set_fileset_grace(path, ...)`. -/
def set_quota_ops (backend : String) (data_replication_factor : ℕ)
    (quota_soft_fraction : ℚ) (path fileset_name : String) (quota : ℕ) : List FsOp :=
  let hard := quota * 1024
  let hard := if backend = "gpfs" then hard * data_replication_factor else hard
  let soft := pyIntOfRat ((hard : ℚ) * quota_soft_fraction)
  [.set_fileset_quota soft path fileset_name (some (hard : Int)), .set_fileset_grace path]

/-- The body of `VscTier2AccountpageVo._set_member_quota` after the storage
lookup: the same arithmetic as `_set_quota`, then
`set_user_quota(soft=soft, user=member_uid, obj=path, hard=hard)`. -/
def set_member_quota_ops (backend : String) (data_replication_factor : ℕ)
    (quota_soft_fraction : ℚ) (path : String) (member_uid : ℕ) (quota : ℕ) : List FsOp :=
  let hard := quota * 1024
  let hard := if backend = "gpfs" then hard * data_replication_factor else hard
  let soft := pyIntOfRat ((hard : ℚ) * quota_soft_fraction)
  [.set_user_quota soft member_uid path (hard : Int)]

/-! ## vo.py: quota record selection (`set_scratch_quota`, `set_member_data_quota`) -/

/-- Python's `s.endswith(suffix)`, structurally on the character lists. -/
def pyEndsWith (s suffix : String) : Bool :=
  List.isSuffixOf suffix.data s.data

/-- The fields of a VO size quota record (`mkVscVoSizeQuota`) the selection
code reads: the storage name, the fileset it applies to, and the hard value
(in KiB, as stored in the account page). -/
structure VoQuota where
  storageName : String
  fileset : String
  hard : ℕ
  deriving DecidableEq, Repr

/-- `VscTier2AccountpageVo.set_scratch_quota(storage_name)`: filter the VO's
scratch quota records by storage name.  No match: apply the storage's default
VO quota.  More than one match: `logging.exception` followed by a bare
`raise`, which in Python 3 raises `RuntimeError` (no active exception) —
before any backend call.  Exactly one match: apply its hard value via
`_set_quota`. -/
def set_scratch_quota (vo_scratch_quota : List VoQuota) (storage_name : String)
    (default_quota_vo : ℕ) (backend : String) (repl : ℕ) (frac : ℚ)
    (scratch_path vo_id : String) : Except PyErr (List FsOp) :=
  let quota := vo_scratch_quota.filter (fun q => q.storageName = storage_name)
  if quota = [] then
    .ok (set_quota_ops backend repl frac scratch_path vo_id default_quota_vo)
  else if 1 < quota.length then
    .error .runtimeError
  else
    .ok (set_quota_ops backend repl frac scratch_path vo_id
      (match quota with | q :: _ => q.hard | [] => default_quota_vo))

/-- `VscTier2AccountpageVo.set_member_data_quota(member)`: guard on the VO
data quota (a numeric value, falsy when `0`) and on the default VOs; filter
the member's VO data quota records down to the ones for this VO's fileset on
a non-shared storage.  More than one match: bare `raise` (`RuntimeError`)
before any backend call.  Exactly one: apply it via `_set_member_quota`.
None (while the member has records): `quota[0]` raises `IndexError`. -/
def set_member_data_quota (vo_vsc_id : String) (vo_data_quota : ℕ)
    (default_vos_all : List String) (member_vo_data_quota : List VoQuota)
    (shared_suffix : String) (member_uid : ℕ) (backend : String) (repl : ℕ)
    (frac : ℚ) (data_path : String) : Except PyErr (List FsOp) :=
  if vo_data_quota = 0 then .ok []
  else if vo_vsc_id ∈ default_vos_all then .ok []
  else if member_vo_data_quota = [] then .ok []
  else
    let quota := member_vo_data_quota.filter
      (fun q => q.fileset = vo_vsc_id && !(pyEndsWith q.storageName shared_suffix))
    if 1 < quota.length then .error .runtimeError
    else
      match quota with
      | q :: _ => .ok (set_member_quota_ops backend repl frac data_path member_uid q.hard)
      | [] => .error .indexError

/-! ## vo.py `update_vo_status` -/

/-- VO status constants from `vsc.config.base` (`NEW`, `MODIFIED`, `MODIFY`,
`ACTIVE`); `other` covers every remaining status value. -/
inductive VoStatus
  | new_st
  | modified_st
  | modify_st
  | active_st
  | other (s : String)
  deriving DecidableEq, Repr

/-- The inputs `update_vo_status(vo)` reads: the VO's dry-run flag, its
current status, and the behaviour of the REST patch call —
`none` means the call raises `HTTPError`, `some s` means it returns a VO
record whose status is `s`. -/
structure UpdateVoEnv where
  dry_run : Bool
  status : VoStatus
  patchResult : Option VoStatus

/-- The outcome of `update_vo_status`: whether a PATCH request was sent to
the account page, and the exception raised (if any). -/
structure UpdateVoResult where
  patched : Bool
  err : Option PyErr
  deriving DecidableEq, Repr

/-- `update_vo_status(vo)`: in dry-run mode log and return; if the status is
not one of `NEW`, `MODIFIED`, `MODIFY` log and return; otherwise PATCH the
status to `ACTIVE`.  An `HTTPError` from the call raises
`VoStatusUpdateError` (the source's `%`-format call there is itself broken,
but an exception is raised either way); a response whose status is not
`ACTIVE` raises `UserStatusUpdateError`. -/
def update_vo_status (env : UpdateVoEnv) : UpdateVoResult :=
  if env.dry_run then ⟨false, none⟩
  else if env.status ∉ [VoStatus.new_st, VoStatus.modified_st, VoStatus.modify_st] then
    ⟨false, none⟩
  else
    match env.patchResult with
    | none => ⟨true, some .voStatusUpdate⟩
    | some s => if s = VoStatus.active_st then ⟨true, none⟩ else ⟨true, some .userStatusUpdate⟩

/-! ## vo.py `_create_fileset` and project.py `create_scratch_fileset` -/

/-- `os.path.dirname(p)`: everything up to the last `/`, with trailing
slashes stripped unless the head consists of slashes only. -/
def dirname (s : String) : String :=
  let head := (s.data.reverse.dropWhile (fun c => !(c = '/'))).reverse
  if head.any (fun c => !(c = '/')) then ⟨(head.reverse.dropWhile (fun c => c = '/')).reverse⟩
  else ⟨head⟩

/-- The backend state the fileset code observes and mutates: which
`(filesystem, fileset)` pairs exist. -/
structure FsState where
  filesets : List (String × String)
  deriving DecidableEq, Repr

/-- `get_fileset_info(filesystem_name, fileset_name)` is truthy exactly when
the fileset exists on the filesystem. -/
def get_fileset_info (st : FsState) (fsys name : String) : Bool :=
  (fsys, name) ∈ st.filesets

/-- The owner resolution of `_create_fileset`: the first VO moderator's uid,
or — when the account-page lookup raises `HTTPError` or the moderator list is
empty (`IndexError`) — the uid of `nobody`. -/
def ownerUid (moderator : Option ℕ) (nobody_uid : ℕ) : ℕ :=
  match moderator with
  | some uid => uid
  | none => nobody_uid

/-- `VscTier2AccountpageVo._create_fileset(storage, path, parent_fileset,
fileset_name, group_owner_id)`: list filesets, query `get_fileset_info`; if
the fileset is absent, `make_dir` on the parent of `path` and `make_fileset`
(with the explicit parent fileset for pre-3.5 GPFS); otherwise log that it
already exists and create nothing.  In every case `chmod 0o770`, resolve the
owner, and `chown`.  Returns the new backend state and the calls issued, in
order.  (`fileset_name` defaults to the VO id and `group_owner_id` to the
VO's numeric id in the caller; both are passed here already resolved.) -/
def create_fileset (st : FsState) (filesystem_name path : String)
    (parent_fileset : Option String) (fileset_name : String)
    (fileset_group_owner_id : ℕ) (moderator : Option ℕ) (nobody_uid : ℕ) :
    FsState × List FsOp :=
  let pre := [FsOp.list_filesets, FsOp.get_fileset_info_op filesystem_name fileset_name]
  let created :=
    if get_fileset_info st filesystem_name fileset_name then (st, ([] : List FsOp))
    else ({ filesets := st.filesets ++ [(filesystem_name, fileset_name)] },
          [FsOp.make_dir (dirname path), FsOp.make_fileset path fileset_name parent_fileset])
  (created.1,
   pre ++ created.2 ++
     [FsOp.chmod 0o770 path,
      FsOp.chown (ownerUid moderator nobody_uid) fileset_group_owner_id path])

/-- `MukProject.create_scratch_fileset()`: the project-path equivalent.  List
filesets, query `get_fileset_info`; create `make_dir` + `make_fileset` only
when absent; always `chmod 0770`, `chown` (submitter or `nobody`, group gid)
and `set_fileset_quota(project_scratch_quota, path, fileset_name)`. -/
def create_scratch_fileset_project (st : FsState) (filesystem_name path
    fileset_name : String) (submitter : Option ℕ) (group_gid nobody_uid : ℕ)
    (project_scratch_quota : ℕ) : FsState × List FsOp :=
  let pre := [FsOp.list_filesets, FsOp.get_fileset_info_op filesystem_name fileset_name]
  let created :=
    if get_fileset_info st filesystem_name fileset_name then (st, ([] : List FsOp))
    else ({ filesets := st.filesets ++ [(filesystem_name, fileset_name)] },
          [FsOp.make_dir (dirname path), FsOp.make_fileset path fileset_name none])
  (created.1,
   pre ++ created.2 ++
     [FsOp.chmod 0o770 path,
      FsOp.chown (ownerUid submitter nobody_uid) group_gid path,
      FsOp.set_fileset_quota (project_scratch_quota : Int) path fileset_name none])

/-- The calls that create state (`make_dir`, `make_fileset`), as opposed to
the always-overwriting `chmod`/`chown`/quota calls. -/
def isCreationOp : FsOp → Bool
  | .make_dir _ => true
  | .make_fileset _ _ _ => true
  | _ => false

/-! ## vo.py `process_vos`

The driver accumulates two `MonoidDict`s (list monoid, `xs + ys`): `ok_vos`
and `error_vos`.  A dict value is normally a Python list of member ids, but
the VO-level failure handler executes `error_vos[vo.vo_id] = vo.members` —
`members` is a *method* (vo.py line 179) and is not called, so the stored
value is a bound-method object, not a list.  `PyVal` distinguishes the two;
`+` between a list and a method raises `TypeError`. -/

/-- A value stored in one of the `process_vos` result `MonoidDict`s. -/
inductive PyVal
  | list (xs : List String)
  | method (voId : String)
  deriving DecidableEq, Repr

/-- A `MonoidDict`, as the partial map from keys to stored values. -/
def MDict : Type := String → Option PyVal

/-- Point update of an `MDict`. -/
def mupdate (d : MDict) (k : String) (v : PyVal) : MDict :=
  fun w => if w = k then some v else d w

/-- `MonoidDict.__setitem__` with the list monoid: an absent key stores the
value as given; a present key combines with `+`, which concatenates two lists
and raises `TypeError` whenever a bound method is involved. -/
def mdictInsert (d : MDict) (k : String) (v : PyVal) : Except PyErr MDict :=
  match d k with
  | none => .ok (mupdate d k v)
  | some cur =>
    match cur, v with
    | .list xs, .list ys => .ok (mupdate d k (.list (xs ++ ys)))
    | _, _ => .error .typeError

/-- Lexicographic `≤` on character lists — Python's string comparison,
embedded structurally so that it evaluates in the kernel. -/
def charListLe : List Char → List Char → Bool
  | [], _ => true
  | _ :: _, [] => false
  | x :: xs, y :: ys => if x = y then charListLe xs ys else decide (x < y)

/-- Python's `a <= b` on strings. -/
def pyStrLe (a b : String) : Bool :=
  charListLe a.data b.data

/-- `sorted(vo_ids)`: Python's stable ascending sort on strings. -/
def pySorted (l : List String) : List String :=
  l.insertionSort (fun a b => pyStrLe a b = true)

/-- Storage name constants from `vsc.config.base`. -/
def VSC_HOME : String := "VSC_HOME"

/-- Storage name constant `VSC_DATA`. -/
def VSC_DATA : String := "VSC_DATA"

/-- Storage name constant `VSC_DATA_SHARED`. -/
def VSC_DATA_SHARED : String := "VSC_DATA_SHARED"

/-- The inputs of one `process_vos` run.  The REST client, the storage
backends and the datestamp are abstracted into oracles: each `...Fail`
predicate tells whether the corresponding group of source statements raises
for a given VO (or VO member), and `modifiedMembers` is the "modified since
datestamp" member list the account page returns, in response order. -/
structure VoEnv where
  /-- The `storage_name` argument. -/
  storage_name : String
  /-- `DEFAULT_VOS_ALL`. -/
  defaultVos : List String
  /-- `INSTITUTE_VOS_BY_INSTITUTE[host_institute][host_institute]`. -/
  instituteVo : String
  /-- `VSC_PRODUCTION_SCRATCH[host_institute]`. -/
  scratchStorages : List String
  /-- `vo.data_sharing` for each VO id. -/
  dataSharing : String → Bool
  /-- whether `create_data_fileset` / `set_data_quota` / `update_vo_status`
  raises for this VO. -/
  dataStepsFail : String → Bool
  /-- whether `create_data_shared_fileset` / `set_data_shared_quota` raises. -/
  sharedStepsFail : String → Bool
  /-- whether `create_scratch_fileset` / `set_scratch_quota` raises. -/
  scratchStepsFail : String → Bool
  /-- whether fetching the modified-member list raises. -/
  fetchFail : String → Bool
  /-- the modified-member vsc_ids for each VO, in account-page order. -/
  modifiedMembers : String → List String
  /-- whether `set_member_data_quota` / `create_member_data_dir` raises for
  member `m` of VO `v`. -/
  memberDataFail : String → String → Bool
  /-- whether `set_member_scratch_quota` / `create_member_scratch_dir`
  raises for member `m` of VO `v`. -/
  memberScratchFail : String → String → Bool

/-- Whether the body of the per-member loop raises for member `m` of VO `v`:
the data-storage calls run when `storage_name in [VSC_DATA]`, the scratch
calls when `storage_name in VSC_PRODUCTION_SCRATCH[host_institute]`. -/
def memberBodyFails (env : VoEnv) (v m : String) : Bool :=
  (decide (env.storage_name = VSC_DATA) && env.memberDataFail v m)
  || (decide (env.storage_name ∈ env.scratchStorages) && env.memberScratchFail v m)

/-- The outcome of one iteration of the outer `for vo_id in sorted(vo_ids)`
loop: the VO-level code raised (`voFailed`), the iteration hit one of the
`continue`s before the member loop (`skipped`), or the member loop ran,
recording per member whether its body succeeded (`processed`). -/
inductive VoOutcome
  | voFailed
  | skipped
  | processed (rs : List (String × Bool))
  deriving DecidableEq, Repr

/-- One iteration of the outer loop of `process_vos`, up to the result-map
updates.  The sequence of guarded blocks of the source, in order: skip
`VSC_HOME`; data block (non-default VOs) — any exception is a VO-level
failure; shared-data block (non-default, data-sharing VOs); skip members of
the institute default VO; scratch block; skip members of default VOs on
home/data; fetch the modified members; then the member loop. -/
def processOneVo (env : VoEnv) (v : String) : VoOutcome :=
  if env.storage_name = VSC_HOME then .skipped
  else if env.storage_name = VSC_DATA ∧ v ∉ env.defaultVos ∧ env.dataStepsFail v then
    .voFailed
  else if env.storage_name = VSC_DATA_SHARED ∧ v ∉ env.defaultVos ∧ env.dataSharing v
      ∧ env.sharedStepsFail v then
    .voFailed
  else if v = env.instituteVo then .skipped
  else if env.storage_name ∈ env.scratchStorages ∧ env.scratchStepsFail v then .voFailed
  else if v ∈ env.defaultVos ∧ env.storage_name ∈ [VSC_HOME, VSC_DATA] then .skipped
  else if env.fetchFail v then .voFailed
  else .processed ((env.modifiedMembers v).map (fun m => (m, !(memberBodyFails env v m))))

/-- The member loop of `process_vos`: for each member, a success appends
`[member_id]` to `ok_vos[vo_id]`, a caught exception appends `[member_id]`
to `error_vos[vo_id]`; siblings continue either way. -/
def applyMemberResults (v : String) : List (String × Bool) → MDict → MDict →
    Except PyErr (MDict × MDict)
  | [], okm, errm => .ok (okm, errm)
  | (m, succ) :: rest, okm, errm =>
    if succ then
      match mdictInsert okm v (.list [m]) with
      | .error e => .error e
      | .ok okm2 => applyMemberResults v rest okm2 errm
    else
      match mdictInsert errm v (.list [m]) with
      | .error e => .error e
      | .ok errm2 => applyMemberResults v rest okm errm2

/-- The outer loop of `process_vos` over the sorted VO ids.  A VO-level
failure stores `vo.members` — the uncalled bound method — under the VO's key
in `error_vos` and moves to the next VO; the `TypeError` a method value
provokes inside `MonoidDict.__setitem__` is not caught anywhere and aborts
the whole run. -/
def processVosGo (env : VoEnv) : List String → MDict → MDict →
    Except PyErr (MDict × MDict)
  | [], okm, errm => .ok (okm, errm)
  | v :: vs, okm, errm =>
    match processOneVo env v with
    | .skipped => processVosGo env vs okm errm
    | .voFailed =>
      match mdictInsert errm v (.method v) with
      | .error e => .error e
      | .ok errm2 => processVosGo env vs okm errm2
    | .processed rs =>
      match applyMemberResults v rs okm errm with
      | .error e => .error e
      | .ok r => processVosGo env vs r.1 r.2

/-- `process_vos(options, vo_ids, storage_name, client, datestamp, ...)`:
iterate the sorted VO ids over empty `ok`/`failed` `MonoidDict`s. -/
def process_vos (env : VoEnv) (vo_ids : List String) : Except PyErr (MDict × MDict) :=
  processVosGo env (pySorted vo_ids) (fun _ => none) (fun _ => none)

/-- The member ids a processed VO failed on, in processing order. -/
def failIds (rs : List (String × Bool)) : List String :=
  (rs.filter (fun p => !p.2)).map Prod.fst

/-- The member ids a processed VO succeeded on, in processing order. -/
def okIds (rs : List (String × Bool)) : List String :=
  (rs.filter (fun p => p.2)).map Prod.fst

/-- The `MonoidDict` value accumulated from appending the given singleton
lists in order: absent for no appends, otherwise the concatenated list. -/
def listValOf (ms : List String) : Option PyVal :=
  if ms = [] then none else some (.list ms)

/-- The final `ok_vos` entry a single VO produces. -/
def voOkVal (env : VoEnv) (w : String) : Option PyVal :=
  match processOneVo env w with
  | .processed rs => listValOf (okIds rs)
  | _ => none

/-- The final `error_vos` entry a single VO produces. -/
def voErrVal (env : VoEnv) (w : String) : Option PyVal :=
  match processOneVo env w with
  | .voFailed => some (.method w)
  | .skipped => none
  | .processed rs => listValOf (failIds rs)

/-- The `ok_vos` entry of the run at a key (`none` when the run raised). -/
def okAt (r : Except PyErr (MDict × MDict)) (k : String) : Option (Option PyVal) :=
  match r with
  | .ok maps => some (maps.1 k)
  | .error _ => none

/-- The `error_vos` entry of the run at a key (`none` when the run raised). -/
def errAt (r : Except PyErr (MDict × MDict)) (k : String) : Option (Option PyVal) :=
  match r with
  | .ok maps => some (maps.2 k)
  | .error _ => none

/-- The uncaught exception of the run, if the run raised. -/
def runRaised (r : Except PyErr (MDict × MDict)) : Option PyErr :=
  match r with
  | .error e => some e
  | .ok _ => none

/-- The order in which the member loop of `process_vos` visits the members
of a VO (empty when the loop is skipped or not reached). -/
def memberProcessOrder (env : VoEnv) (v : String) : List String :=
  match processOneVo env v with
  | .processed rs => rs.map Prod.fst
  | _ => []

/-! ## Concrete run environments used to evaluate the model -/

/-- A run on `VSC_DATA` where VO `gvo00001` has two modified members and
member `vsc40002` fails its member-level provisioning. -/
def c1Env : VoEnv where
  storage_name := "VSC_DATA"
  defaultVos := ["gvo00012"]
  instituteVo := "gvo00012"
  scratchStorages := []
  dataSharing := fun _ => false
  dataStepsFail := fun _ => false
  sharedStepsFail := fun _ => false
  scratchStepsFail := fun _ => false
  fetchFail := fun _ => false
  modifiedMembers := fun v => if v = "gvo00001" then ["vsc40001", "vsc40002"] else ["vsc40005"]
  memberDataFail := fun v m => v = "gvo00001" && m = "vsc40002"
  memberScratchFail := fun _ _ => false

/-- A run on `VSC_DATA` where the VO-level provisioning of `gvo00002` raises
(e.g. `create_data_fileset` fails) and `gvo00003` provisions cleanly. -/
def c2Env : VoEnv where
  storage_name := "VSC_DATA"
  defaultVos := ["gvo00012"]
  instituteVo := "gvo00012"
  scratchStorages := []
  dataSharing := fun _ => false
  dataStepsFail := fun v => v = "gvo00002"
  sharedStepsFail := fun _ => false
  scratchStepsFail := fun _ => false
  fetchFail := fun _ => false
  modifiedMembers := fun _ => ["vsc40001"]
  memberDataFail := fun _ _ => false
  memberScratchFail := fun _ _ => false

/-- A failure-free run on `VSC_DATA` where the account page returns the
modified members of `gvo00001` in non-sorted order. -/
def c9Env : VoEnv where
  storage_name := "VSC_DATA"
  defaultVos := ["gvo00012"]
  instituteVo := "gvo00012"
  scratchStorages := []
  dataSharing := fun _ => false
  dataStepsFail := fun _ => false
  sharedStepsFail := fun _ => false
  scratchStepsFail := fun _ => false
  fetchFail := fun _ => false
  modifiedMembers := fun _ => ["vsc40002", "vsc40001"]
  memberDataFail := fun _ _ => false
  memberScratchFail := fun _ _ => false

/-! ## Theorems -/

/-- C8: `execute_commands` runs the accounting command list strictly in
sequence; the first command with a non-zero exit code raises
`SacctMgrException` and no later command is executed: on a batch
`pre ++ c :: post` where everything in `pre` exits 0 and `c` does not, the
executed commands are exactly `pre ++ [c]` in order and the run raises on
`c`, so the whole batch fails for that run. -/
theorem execute_commands_fail_fast (run_ec : String → Int) (pre post : List String)
    (c : String) (hpre : ∀ d ∈ pre, run_ec d = 0) (hc : run_ec c ≠ 0) :
    execute_commands run_ec (pre ++ c :: post) = (pre ++ [c], some c) := by
  induction pre with
  | nil => simp [execute_commands, hc]
  | cons d ds ih =>
    have hd : run_ec d = 0 := hpre d (by simp)
    have ih2 := ih (fun x hx => hpre x (by simp [hx]))
    simp [execute_commands, hd, ih2]

/-- Witness for C8 at a concrete batch. -/
theorem execute_commands_fail_fast_witness :
    execute_commands (fun s => if s = "b" then (1 : Int) else 0)
      (["a"] ++ "b" :: ["c"]) = (["a", "b"], some "b") :=
  execute_commands_fail_fast (fun s => if s = "b" then (1 : Int) else 0)
    ["a"] ["c"] "b" (by decide) (by decide)

/-- C3: for every declared quota value (KiB) applied by `_set_quota` or
`_set_member_quota`, the hard limit passed to the backend is
`declared_kib * 1024`, additionally multiplied by the storage's data
replication factor exactly when the backend is `'gpfs'`; the soft limit is
`floor(hard * soft_fraction)`; and `soft ≤ hard` (the policy fraction is a
constant between 0 and 1). -/
theorem quota_arithmetic (backend : String) (repl : ℕ) (frac : ℚ) (quota : ℕ)
    (path fs : String) (uid : ℕ) (h0 : 0 ≤ frac) (h1 : frac ≤ 1) :
    ∃ (hard : ℕ) (soft : ℤ),
      set_quota_ops backend repl frac path fs quota =
        [.set_fileset_quota soft path fs (some (hard : Int)), .set_fileset_grace path] ∧
      set_member_quota_ops backend repl frac path uid quota =
        [.set_user_quota soft uid path (hard : Int)] ∧
      hard = (if backend = "gpfs" then quota * 1024 * repl else quota * 1024) ∧
      soft = ⌊(hard : ℚ) * frac⌋ ∧
      soft ≤ (hard : ℤ) := by
  refine ⟨(if backend = "gpfs" then quota * 1024 * repl else quota * 1024),
    pyIntOfRat (((if backend = "gpfs" then quota * 1024 * repl else quota * 1024) : ℕ) * frac),
    ?_, ?_, rfl, ?_, ?_⟩
  · by_cases hb : backend = "gpfs" <;> simp [set_quota_ops, hb]
  · by_cases hb : backend = "gpfs" <;> simp [set_member_quota_ops, hb]
  · have hnn : (0 : ℚ) ≤
        ((if backend = "gpfs" then quota * 1024 * repl else quota * 1024) : ℕ) * frac :=
      mul_nonneg (by positivity) h0
    rw [pyIntOfRat, if_pos hnn]
  · have hnn : (0 : ℚ) ≤
        ((if backend = "gpfs" then quota * 1024 * repl else quota * 1024) : ℕ) * frac :=
      mul_nonneg (by positivity) h0
    rw [pyIntOfRat, if_pos hnn]
    calc ⌊((if backend = "gpfs" then quota * 1024 * repl else quota * 1024) : ℕ) * frac⌋
        ≤ ⌊(((if backend = "gpfs" then quota * 1024 * repl else quota * 1024) : ℕ) : ℚ)⌋ :=
          Int.floor_le_floor (mul_le_of_le_one_right (by positivity) h1)
      _ = ((if backend = "gpfs" then quota * 1024 * repl else quota * 1024 : ℕ) : ℤ) :=
          Int.floor_natCast _

/-- Witness for C3 on a gpfs storage with replication factor 2,
soft fraction 9/10 and a declared quota of 100 KiB. -/
theorem quota_arithmetic_witness :
    ∃ (hard : ℕ) (soft : ℤ),
      set_quota_ops "gpfs" 2 (9/10) "/p" "gvo00001" 100 =
        [.set_fileset_quota soft "/p" "gvo00001" (some (hard : Int)),
         .set_fileset_grace "/p"] ∧
      set_member_quota_ops "gpfs" 2 (9/10) "/p" 2540001 100 =
        [.set_user_quota soft 2540001 "/p" (hard : Int)] ∧
      hard = (if "gpfs" = "gpfs" then 100 * 1024 * 2 else 100 * 1024) ∧
      soft = ⌊(hard : ℚ) * (9/10)⌋ ∧
      soft ≤ (hard : ℤ) :=
  quota_arithmetic "gpfs" 2 (9/10) 100 "/p" "gvo00001" 2540001
    (by norm_num) (by norm_num)

/-- C7: `update_vo_status` issues a status PATCH to the account page if and
only if dry-run is off and the VO's current status is one of `NEW`,
`MODIFIED`, `MODIFY`; in every other case (any other status, or dry-run with
any status) the function returns without writing and without raising, so the
VO's status is left untouched. -/
theorem update_vo_status_patch_iff (env : UpdateVoEnv) :
    ((update_vo_status env).patched = true ↔
      env.dry_run = false ∧
        env.status ∈ [VoStatus.new_st, VoStatus.modified_st, VoStatus.modify_st]) ∧
    ((update_vo_status env).patched = false → (update_vo_status env).err = none) := by
  unfold update_vo_status
  by_cases hd : env.dry_run
  · simp [hd]
  · by_cases hs : env.status ∈ [VoStatus.new_st, VoStatus.modified_st, VoStatus.modify_st]
    · cases hp : env.patchResult with
      | none => simp [hd, hs, hp]
      | some s =>
        by_cases hact : s = VoStatus.active_st <;> simp [hd, hs, hp, hact]
    · simp [hd, hs]

/-- Under a header whose (transformed) column names are all `SlurmJobs`
fields, the jobs line parser accepts every line: `zip` truncates at the
shorter of header and values, so a value-count mismatch does not raise. -/
theorem parse_line_jobs_ok (header : List String) (line : String)
    (hsub : ∀ w ∈ header, w ∈ SacctJobsFields) :
    ∃ r, parse_slurm_sacct_line header line SacctSelector.jobs = .ok (some r) := by
  have hall : (header.zip (pySplit line '|')).all
      (fun p => decide (p.1 ∈ SacctJobsFields)) = true := by
    rw [List.all_eq_true]
    rintro ⟨a, b⟩ hp
    simpa using hsub a (List.of_mem_zip hp).1
  simp only [parse_slurm_sacct_line, mkSlurmJobs, hall, if_true, Except.map_ok]
  exact ⟨_, rfl⟩

/-- A data-line loop whose parser never raises returns a result set. -/
theorem dump_loop_total (pl : List String → String → Except PyErr (Option SlurmJobs))
    (header : List String) (ls : List String)
    (h : ∀ l, ∃ o, pl header (pyRstrip l) = .ok o) :
    ∀ acc, ∃ rs, dump_loop pl header ls acc = .ok rs := by
  induction ls with
  | nil => intro acc; exact ⟨acc, rfl⟩
  | cons l ls ih =>
    intro acc
    obtain ⟨o, ho⟩ := h l
    cases o with
    | none => simpa [dump_loop, ho] using ih acc
    | some r => simpa [dump_loop, ho] using ih (if r ∈ acc then acc else acc ++ [r])

/-- A line the parser maps to `None` is dropped by the data-line loop:
the loop behaves as if the line were not in the dump at all. -/
theorem dump_loop_skip (pl : List String → String → Except PyErr (Option SlurmJobs))
    (header : List String) (bad : String)
    (hbad : pl header (pyRstrip bad) = .ok none) (pre post : List String) :
    ∀ acc, dump_loop pl header (pre ++ bad :: post) acc =
      dump_loop pl header (pre ++ post) acc := by
  induction pre with
  | nil => intro acc; simp [dump_loop, hbad]
  | cons x xs ih =>
    intro acc
    cases hx : pl header (pyRstrip x) with
    | error e => simp [dump_loop, hx]
    | ok o =>
      cases o with
      | none =>
        simp only [List.cons_append, dump_loop, hx]
        exact ih acc
      | some r =>
        simp only [List.cons_append, dump_loop, hx]
        exact ih _

/-- C5 counterexample: a dump whose data line has three values under a
two-column header does **not** raise a parse error — `parse_slurm_sacct_dump`
returns one record, with the excess value dropped (`zip` truncation) and the
unlisted fields left at their defaults.  This contradicts the claim that a
header/value count mismatch raises and yields zero records. -/
theorem sacct_count_mismatch_not_an_error :
    parse_slurm_sacct_dump ["JobID|State", "1|RUNNING|zzz"] SacctSelector.jobs =
      .ok [{ JobID := some "1", State := some "RUNNING" }] := by rfl

/-- C5 (amended): a header/value count mismatch does not abort the dump —
under a header of known column names the jobs parser accepts every data line,
excess values being dropped and missing columns left at their `None`
defaults; an unknown record-type selector raises `SacctParseException` as
soon as the first data line is processed, so the caller receives zero
records; a header-only dump returns the empty set for any selector. -/
theorem sacct_dump_mismatch_tolerated_unknown_selector_raises (hdr : String)
    (rest : List String) (v line : String) (ls : List String)
    (hsub : ∀ w ∈ pyHeader hdr, w ∈ SacctJobsFields) :
    (∃ rs, parse_slurm_sacct_dump (hdr :: rest) SacctSelector.jobs = .ok rs) ∧
    parse_slurm_sacct_dump (hdr :: line :: ls) (SacctSelector.other v) =
      .error (.sacctParse v) ∧
    parse_slurm_sacct_dump [hdr] (SacctSelector.other v) = .ok [] := by
  refine ⟨?_, ?_, rfl⟩
  · simpa [parse_slurm_sacct_dump] using
      dump_loop_total _ (pyHeader hdr) rest
        (fun l => by
          obtain ⟨r, hr⟩ := parse_line_jobs_ok (pyHeader hdr) (pyRstrip l) hsub
          exact ⟨some r, hr⟩) []
  · simp [parse_slurm_sacct_dump, dump_loop, parse_slurm_sacct_line]

/-- Witness for the amended C5 on a concrete mismatched dump and the
selector the regression test uses. -/
theorem sacct_dump_amended_witness :
    (∃ rs, parse_slurm_sacct_dump ("JobID|State" :: ["1|RUNNING|zzz"])
        SacctSelector.jobs = .ok rs) ∧
    parse_slurm_sacct_dump ("JobID|State" :: "x" :: [])
        (SacctSelector.other "doesnotexist") =
      .error (.sacctParse "doesnotexist") ∧
    parse_slurm_sacct_dump ["JobID|State"] (SacctSelector.other "doesnotexist") =
      .ok [] :=
  sacct_dump_mismatch_tolerated_unknown_selector_raises "JobID|State"
    ["1|RUNNING|zzz"] "doesnotexist" "x" [] (by decide)

/-- C4: in the multi-record-type accounting dump parser, a data line that
does not belong to the requested record type is skipped: the whole parse
behaves exactly as if the line were absent — no exception is raised for it,
no record is added for it, and the remaining applicable lines are still
parsed. -/
theorem acct_dump_skips_unrequested_lines (applies : String → Bool) (hdr : String)
    (pre post : List String) (bad : String) (hbad : applies (pyRstrip bad) = false) :
    parse_acct_dump_m applies (hdr :: (pre ++ bad :: post)) =
      parse_acct_dump_m applies (hdr :: (pre ++ post)) := by
  have hb : parse_acct_line_m applies (pyHeader hdr) (pyRstrip bad) = .ok none := by
    simp [parse_acct_line_m, hbad]
  simpa [parse_acct_dump_m] using
    dump_loop_skip (parse_acct_line_m applies) (pyHeader hdr) bad hb pre post []

/-- Witness for C4: an account-type line inside a user-record scan is
dropped, the surrounding user lines are parsed as without it. -/
theorem acct_dump_skips_unrequested_lines_witness :
    parse_acct_dump_m (fun s => !(s == "account|acc1"))
        ("JobID|State" :: (["1|RUNNING"] ++ "account|acc1" :: ["2|FAILED"])) =
      parse_acct_dump_m (fun s => !(s == "account|acc1"))
        ("JobID|State" :: (["1|RUNNING"] ++ ["2|FAILED"])) :=
  acct_dump_skips_unrequested_lines (fun s => !(s == "account|acc1")) "JobID|State"
    ["1|RUNNING"] ["2|FAILED"] "account|acc1" (by rfl)

/-- After `_create_fileset` runs, the fileset exists: either it already did,
or `make_fileset` just registered it. -/
theorem create_fileset_ensures (st : FsState) (fsys path : String)
    (par : Option String) (name : String) (gid : ℕ) (moderator : Option ℕ)
    (nobody : ℕ) :
    get_fileset_info (create_fileset st fsys path par name gid moderator nobody).1
      fsys name = true := by
  unfold create_fileset
  by_cases h : get_fileset_info st fsys name
  · simp [h]
  · simp only [h, if_false, Bool.false_eq_true]
    simp [get_fileset_info]

/-- Same for the project-path `create_scratch_fileset`. -/
theorem create_scratch_fileset_project_ensures (st : FsState) (fsys path
    name : String) (submitter : Option ℕ) (gid nobody quota : ℕ) :
    get_fileset_info
      (create_scratch_fileset_project st fsys path name submitter gid nobody quota).1
      fsys name = true := by
  unfold create_scratch_fileset_project
  by_cases h : get_fileset_info st fsys name
  · simp [h]
  · simp only [h, if_false, Bool.false_eq_true]
    simp [get_fileset_info]

/-- C6: in `_create_fileset` and the project-path `create_scratch_fileset`,
`make_dir`/`make_fileset` are issued exactly when `get_fileset_info` reports
the fileset absent; when it exists no creation call is made; `chmod`, owner
resolution and `chown` (and, on the project path, the quota call) are issued
in every case; and re-running on the state the first run produced issues no
creation mutation and leaves the state unchanged. -/
theorem create_fileset_creation_only_if_absent (st : FsState) (fsys path : String)
    (par : Option String) (name : String) (gid : ℕ) (moderator : Option ℕ)
    (nobody : ℕ) (pfsys ppath pname : String) (psub : Option ℕ)
    (pgid pnobody pquota : ℕ) :
    ((create_fileset st fsys path par name gid moderator nobody).2.filter isCreationOp =
       if get_fileset_info st fsys name then []
       else [FsOp.make_dir (dirname path), FsOp.make_fileset path name par]) ∧
    FsOp.chmod 0o770 path ∈ (create_fileset st fsys path par name gid moderator nobody).2 ∧
    FsOp.chown (ownerUid moderator nobody) gid path ∈
      (create_fileset st fsys path par name gid moderator nobody).2 ∧
    (create_fileset (create_fileset st fsys path par name gid moderator nobody).1
        fsys path par name gid moderator nobody).1 =
      (create_fileset st fsys path par name gid moderator nobody).1 ∧
    (create_fileset (create_fileset st fsys path par name gid moderator nobody).1
        fsys path par name gid moderator nobody).2.filter isCreationOp = [] ∧
    ((create_scratch_fileset_project st pfsys ppath pname psub pgid pnobody
        pquota).2.filter isCreationOp =
       if get_fileset_info st pfsys pname then []
       else [FsOp.make_dir (dirname ppath), FsOp.make_fileset ppath pname none]) ∧
    FsOp.chmod 0o770 ppath ∈
      (create_scratch_fileset_project st pfsys ppath pname psub pgid pnobody pquota).2 ∧
    FsOp.chown (ownerUid psub pnobody) pgid ppath ∈
      (create_scratch_fileset_project st pfsys ppath pname psub pgid pnobody pquota).2 ∧
    FsOp.set_fileset_quota (pquota : Int) ppath pname none ∈
      (create_scratch_fileset_project st pfsys ppath pname psub pgid pnobody pquota).2 ∧
    (create_scratch_fileset_project
        (create_scratch_fileset_project st pfsys ppath pname psub pgid pnobody pquota).1
        pfsys ppath pname psub pgid pnobody pquota).2.filter isCreationOp = [] := by
  refine ⟨?_, ?_, ?_, ?_, ?_, ?_, ?_, ?_, ?_, ?_⟩
  · by_cases h : get_fileset_info st fsys name <;>
      simp [create_fileset, h, isCreationOp]
  · by_cases h : get_fileset_info st fsys name <;> simp [create_fileset, h]
  · by_cases h : get_fileset_info st fsys name <;> simp [create_fileset, h]
  · have h3 : get_fileset_info { filesets := st.filesets ++ [(fsys, name)] }
        fsys name = true := by simp [get_fileset_info]
    rw [create_fileset, create_fileset]
    by_cases h : get_fileset_info st fsys name <;> simp [h, h3]
  · have h3 : get_fileset_info { filesets := st.filesets ++ [(fsys, name)] }
        fsys name = true := by simp [get_fileset_info]
    rw [create_fileset, create_fileset]
    by_cases h : get_fileset_info st fsys name <;> simp [h, h3, isCreationOp]
  · by_cases h : get_fileset_info st pfsys pname <;>
      simp [create_scratch_fileset_project, h, isCreationOp]
  · by_cases h : get_fileset_info st pfsys pname <;>
      simp [create_scratch_fileset_project, h]
  · by_cases h : get_fileset_info st pfsys pname <;>
      simp [create_scratch_fileset_project, h]
  · by_cases h : get_fileset_info st pfsys pname <;>
      simp [create_scratch_fileset_project, h]
  · have hp3 : get_fileset_info { filesets := st.filesets ++ [(pfsys, pname)] }
        pfsys pname = true := by simp [get_fileset_info]
    rw [create_scratch_fileset_project, create_scratch_fileset_project]
    by_cases h : get_fileset_info st pfsys pname <;> simp [h, hp3, isCreationOp]

/-- C10: when more than one quota record survives the filter — several
scratch quota entries for the same storage name in `set_scratch_quota`, or
several member data quota entries for the VO's fileset in
`set_member_data_quota` — the function raises (the source's bare `raise`
yields `RuntimeError`) before any quota-setting backend call is issued, so
the backend state is left unchanged. -/
theorem multiple_quota_matches_raise (vo_scratch_quota : List VoQuota)
    (storage_name : String) (dq : ℕ) (backend : String) (repl : ℕ) (frac : ℚ)
    (sp vid : String) (vo_vsc_id : String) (vdq : ℕ) (dvs : List String)
    (mq : List VoQuota) (suffix : String) (uid : ℕ) (dpath : String)
    (h1 : 1 < (vo_scratch_quota.filter
      (fun q => q.storageName = storage_name)).length)
    (hv : vdq ≠ 0) (hd : vo_vsc_id ∉ dvs) (hm : mq ≠ [])
    (h2 : 1 < (mq.filter (fun q => decide (q.fileset = vo_vsc_id) &&
      !(pyEndsWith q.storageName suffix))).length) :
    set_scratch_quota vo_scratch_quota storage_name dq backend repl frac sp vid =
      .error .runtimeError ∧
    set_member_data_quota vo_vsc_id vdq dvs mq suffix uid backend repl frac dpath =
      .error .runtimeError := by
  constructor
  · have hne : vo_scratch_quota.filter (fun q => q.storageName = storage_name) ≠ [] := by
      intro h
      rw [h] at h1
      simp at h1
    simp [set_scratch_quota, hne, h1]
  · simp [set_member_data_quota, hv, hd, hm, h2]

/-- Witness for C10: two scratch quota records for the same storage, and two
member data quota records for the same VO fileset. -/
theorem multiple_quota_matches_raise_witness :
    set_scratch_quota
        [⟨"VSC_SCRATCH_KYUKON", "gvo00001", 10⟩, ⟨"VSC_SCRATCH_KYUKON", "gvo00001", 20⟩]
        "VSC_SCRATCH_KYUKON" 16384 "gpfs" 2 (9/10) "/scratch/gvo00001" "gvo00001" =
      .error .runtimeError ∧
    set_member_data_quota "gvo00001" 1024 ["gvo00012"]
        [⟨"VSC_DATA", "gvo00001", 10⟩, ⟨"VSC_DATA", "gvo00001", 20⟩]
        "_SHARED" 2540001 "gpfs" 2 (9/10) "/data/gvo00001" =
      .error .runtimeError :=
  multiple_quota_matches_raise
    [⟨"VSC_SCRATCH_KYUKON", "gvo00001", 10⟩, ⟨"VSC_SCRATCH_KYUKON", "gvo00001", 20⟩]
    "VSC_SCRATCH_KYUKON" 16384 "gpfs" 2 (9/10) "/scratch/gvo00001" "gvo00001"
    "gvo00001" 1024 ["gvo00012"]
    [⟨"VSC_DATA", "gvo00001", 10⟩, ⟨"VSC_DATA", "gvo00001", 20⟩]
    "_SHARED" 2540001 "/data/gvo00001"
    (by decide) (by decide) (by decide) (by decide) (by decide)

/-- `charListLe` is total. -/
theorem charListLe_total : ∀ a b : List Char, charListLe a b = true ∨ charListLe b a = true
  | [], _ => .inl rfl
  | _ :: _, [] => .inr rfl
  | x :: xs, y :: ys => by
    by_cases hxy : x = y
    · subst hxy
      rcases charListLe_total xs ys with h | h
      · left
        simp [charListLe, h]
      · right
        simp [charListLe, h]
    · rcases lt_trichotomy x y with h | h | h
      · left
        simp [charListLe, hxy, h]
      · exact absurd h hxy
      · right
        simp [charListLe, Ne.symm hxy, h]

/-- `charListLe` is transitive. -/
theorem charListLe_trans : ∀ a b c : List Char,
    charListLe a b = true → charListLe b c = true → charListLe a c = true
  | [], _, _, _, _ => rfl
  | _ :: _, [], _, hab, _ => by simp [charListLe] at hab
  | _ :: _, _ :: _, [], _, hbc => by simp [charListLe] at hbc
  | x :: xs, y :: ys, z :: zs, hab, hbc => by
    by_cases hxy : x = y <;> by_cases hyz : y = z
    · subst hxy
      subst hyz
      simp only [charListLe, if_pos rfl] at hab hbc ⊢
      exact charListLe_trans _ _ _ hab hbc
    · subst hxy
      simp only [charListLe, if_neg hyz, decide_eq_true_eq] at hbc
      simp [charListLe, hyz, hbc]
    · subst hyz
      simp only [charListLe, if_neg hxy, decide_eq_true_eq] at hab
      simp [charListLe, hxy, hab]
    · simp only [charListLe, if_neg hxy, decide_eq_true_eq] at hab
      simp only [charListLe, if_neg hyz, decide_eq_true_eq] at hbc
      have hxz : x < z := lt_trans hab hbc
      simp [charListLe, ne_of_lt hxz, hxz]

instance : IsTotal String (fun a b => pyStrLe a b = true) :=
  ⟨fun a b => charListLe_total a.data b.data⟩

instance : IsTrans String (fun a b => pyStrLe a b = true) :=
  ⟨fun a b c => charListLe_trans a.data b.data c.data⟩

/-- Appending a one-member list to a `MonoidDict` entry holding a list (or
holding nothing): the `+` of the list monoid succeeds and appends. -/
theorem mdictInsert_list (d : MDict) (k : String) (xs : List String) (m : String)
    (h : d k = listValOf xs) :
    mdictInsert d k (.list [m]) = .ok (mupdate d k (.list (xs ++ [m]))) := by
  by_cases hxs : xs = []
  · subst hxs
    simp only [listValOf, if_pos rfl] at h
    simp [mdictInsert, h]
  · simp only [listValOf, if_neg hxs] at h
    simp [mdictInsert, h]

/-- `okIds` on one more member result. -/
theorem okIds_cons (m : String) (b : Bool) (rest : List (String × Bool)) :
    okIds ((m, b) :: rest) = if b then m :: okIds rest else okIds rest := by
  cases b <;> simp [okIds, List.filter_cons]

/-- `failIds` on one more member result. -/
theorem failIds_cons (m : String) (b : Bool) (rest : List (String × Bool)) :
    failIds ((m, b) :: rest) = if b then failIds rest else m :: failIds rest := by
  cases b <;> simp [failIds, List.filter_cons]

/-- The member loop, fully characterised: starting from maps whose entries at
the VO's key hold the already-accumulated lists `xs` (ok) and `ys` (failed),
the loop terminates normally with the per-member singletons appended in
processing order, and no other key changed. -/
theorem applyMemberResults_eq (v : String) (rs : List (String × Bool)) :
    ∀ (okm errm : MDict) (xs ys : List String),
      okm v = listValOf xs → errm v = listValOf ys →
      applyMemberResults v rs okm errm = .ok
        (fun w => if w = v then listValOf (xs ++ okIds rs) else okm w,
         fun w => if w = v then listValOf (ys ++ failIds rs) else errm w) := by
  induction rs with
  | nil =>
    intro okm errm xs ys hok herr
    have hf : (fun w => if w = v then listValOf (xs ++ okIds []) else okm w) = okm := by
      funext w
      by_cases hw : w = v <;> simp [hw, hok, okIds]
    have hg : (fun w => if w = v then listValOf (ys ++ failIds []) else errm w) = errm := by
      funext w
      by_cases hw : w = v <;> simp [hw, herr, failIds]
    rw [hf, hg]
    rfl
  | cons p rest ih =>
    obtain ⟨m, succ⟩ := p
    intro okm errm xs ys hok herr
    cases succ with
    | true =>
      have hstep := mdictInsert_list okm v xs m hok
      have hok2 : (mupdate okm v (.list (xs ++ [m]))) v = listValOf (xs ++ [m]) := by
        simp [mupdate, listValOf]
      have ih2 := ih (mupdate okm v (.list (xs ++ [m]))) errm (xs ++ [m]) ys hok2 herr
      have hf : (fun w => if w = v then listValOf (xs ++ [m] ++ okIds rest)
            else mupdate okm v (.list (xs ++ [m])) w) =
          (fun w => if w = v then listValOf (xs ++ okIds ((m, true) :: rest))
            else okm w) := by
        funext w
        by_cases hw : w = v
        · simp [hw, okIds_cons, List.append_assoc]
        · simp [hw, mupdate]
      have hg : (fun w => if w = v then listValOf (ys ++ failIds rest) else errm w) =
          (fun w => if w = v then listValOf (ys ++ failIds ((m, true) :: rest))
            else errm w) := by
        funext w
        by_cases hw : w = v <;> simp [hw, failIds_cons]
      simp only [applyMemberResults, if_true, hstep]
      rw [ih2, hf, hg]
    | false =>
      have hstep := mdictInsert_list errm v ys m herr
      have herr2 : (mupdate errm v (.list (ys ++ [m]))) v = listValOf (ys ++ [m]) := by
        simp [mupdate, listValOf]
      have ih2 := ih okm (mupdate errm v (.list (ys ++ [m]))) xs (ys ++ [m]) hok herr2
      have hf : (fun w => if w = v then listValOf (xs ++ okIds rest) else okm w) =
          (fun w => if w = v then listValOf (xs ++ okIds ((m, false) :: rest))
            else okm w) := by
        funext w
        by_cases hw : w = v <;> simp [hw, okIds_cons]
      have hg : (fun w => if w = v then listValOf (ys ++ [m] ++ failIds rest)
            else mupdate errm v (.list (ys ++ [m])) w) =
          (fun w => if w = v then listValOf (ys ++ failIds ((m, false) :: rest))
            else errm w) := by
        funext w
        by_cases hw : w = v
        · simp [hw, failIds_cons, List.append_assoc]
        · simp [hw, mupdate]
      simp only [applyMemberResults, if_false, Bool.false_eq_true, hstep]
      rw [ih2, hf, hg]

/-- The member loop on fresh keys: the final entries are exactly the
successful and the failed member ids, in processing order. -/
theorem applyMemberResults_spec (v : String) (rs : List (String × Bool))
    (okm errm : MDict) (hok : okm v = none) (herr : errm v = none) :
    applyMemberResults v rs okm errm = .ok
      (fun w => if w = v then listValOf (okIds rs) else okm w,
       fun w => if w = v then listValOf (failIds rs) else errm w) := by
  have h := applyMemberResults_eq v rs okm errm [] []
    (by simpa [listValOf] using hok) (by simpa [listValOf] using herr)
  simpa using h

/-- The outer loop of `process_vos`, fully characterised on lists of pairwise
distinct VO ids and maps that are fresh on those ids: each id ends up with
exactly the entries its own iteration produces, every other key is
untouched, and no `TypeError` is raised. -/
theorem processVosGo_spec (env : VoEnv) (l : List String) :
    ∀ (okm errm : MDict), l.Nodup →
      (∀ u ∈ l, okm u = none) → (∀ u ∈ l, errm u = none) →
      processVosGo env l okm errm = .ok
        (fun w => if w ∈ l then voOkVal env w else okm w,
         fun w => if w ∈ l then voErrVal env w else errm w) := by
  induction l with
  | nil =>
    intro okm errm _ _ _
    simp [processVosGo]
  | cons v vs ih =>
    intro okm errm hnd hok herr
    have hvnotin : v ∉ vs := (List.nodup_cons.mp hnd).1
    have hndtl : vs.Nodup := (List.nodup_cons.mp hnd).2
    cases hpo : processOneVo env v with
    | skipped =>
      have ih2 := ih okm errm hndtl (fun u hu => hok u (by simp [hu]))
        (fun u hu => herr u (by simp [hu]))
      have hf : (fun w => if w ∈ vs then voOkVal env w else okm w) =
          (fun w => if w ∈ v :: vs then voOkVal env w else okm w) := by
        funext w
        by_cases hw : w = v
        · subst hw
          simp [hvnotin, hok w (by simp), voOkVal, hpo]
        · simp [List.mem_cons, hw]
      have hg : (fun w => if w ∈ vs then voErrVal env w else errm w) =
          (fun w => if w ∈ v :: vs then voErrVal env w else errm w) := by
        funext w
        by_cases hw : w = v
        · subst hw
          simp [hvnotin, herr w (by simp), voErrVal, hpo]
        · simp [List.mem_cons, hw]
      simp only [processVosGo, hpo]
      rw [ih2, hf, hg]
    | voFailed =>
      have hins : mdictInsert errm v (.method v) = .ok (mupdate errm v (.method v)) := by
        have h := herr v (by simp)
        simp [mdictInsert, h]
      have ih2 := ih okm (mupdate errm v (.method v)) hndtl
        (fun u hu => hok u (by simp [hu]))
        (fun u hu => by
          have hne : u ≠ v := fun he => hvnotin (he ▸ hu)
          simp [mupdate, hne]
          exact herr u (by simp [hu]))
      have hf : (fun w => if w ∈ vs then voOkVal env w else okm w) =
          (fun w => if w ∈ v :: vs then voOkVal env w else okm w) := by
        funext w
        by_cases hw : w = v
        · subst hw
          simp [hvnotin, hok w (by simp), voOkVal, hpo]
        · simp [List.mem_cons, hw]
      have hg : (fun w => if w ∈ vs then voErrVal env w else mupdate errm v (.method v) w) =
          (fun w => if w ∈ v :: vs then voErrVal env w else errm w) := by
        funext w
        by_cases hw : w = v
        · subst hw
          simp [hvnotin, mupdate, voErrVal, hpo]
        · simp [List.mem_cons, hw, mupdate]
      simp only [processVosGo, hpo, hins]
      rw [ih2, hf, hg]
    | processed rs =>
      have hams := applyMemberResults_spec v rs okm errm (hok v (by simp))
        (herr v (by simp))
      have ih2 := ih (fun w => if w = v then listValOf (okIds rs) else okm w)
        (fun w => if w = v then listValOf (failIds rs) else errm w) hndtl
        (fun u hu => by
          have hne : u ≠ v := fun he => hvnotin (he ▸ hu)
          simp [hne]
          exact hok u (by simp [hu]))
        (fun u hu => by
          have hne : u ≠ v := fun he => hvnotin (he ▸ hu)
          simp [hne]
          exact herr u (by simp [hu]))
      have hf : (fun w => if w ∈ vs then voOkVal env w
            else if w = v then listValOf (okIds rs) else okm w) =
          (fun w => if w ∈ v :: vs then voOkVal env w else okm w) := by
        funext w
        by_cases hw : w = v
        · subst hw
          simp [hvnotin, voOkVal, hpo]
        · simp [List.mem_cons, hw]
      have hg : (fun w => if w ∈ vs then voErrVal env w
            else if w = v then listValOf (failIds rs) else errm w) =
          (fun w => if w ∈ v :: vs then voErrVal env w else errm w) := by
        funext w
        by_cases hw : w = v
        · subst hw
          simp [hvnotin, voErrVal, hpo]
        · simp [List.mem_cons, hw]
      simp only [processVosGo, hpo, hams]
      rw [ih2, hf, hg]

/-- `process_vos` on pairwise distinct VO ids: the run terminates normally
and each VO's `ok`/`failed` entries are exactly those its own processing
produces — `ok` holds its successfully provisioned modified members, and
`failed` holds either its failed members or, on a VO-level failure, the
uncalled `vo.members` bound method. -/
theorem process_vos_spec (env : VoEnv) (vo_ids : List String) (hnd : vo_ids.Nodup) :
    process_vos env vo_ids = .ok
      (fun w => if w ∈ vo_ids then voOkVal env w else none,
       fun w => if w ∈ vo_ids then voErrVal env w else none) := by
  have hperm : (pySorted vo_ids).Perm vo_ids := List.perm_insertionSort _ _
  have hnd2 : (pySorted vo_ids).Nodup := hperm.nodup_iff.mpr hnd
  have h := processVosGo_spec env (pySorted vo_ids) (fun _ => none) (fun _ => none)
    hnd2 (fun _ _ => rfl) (fun _ _ => rfl)
  rw [process_vos, h]
  congr 1
  congr 1
  · funext w
    simp [hperm.mem_iff]
  · funext w
    simp [hperm.mem_iff]

/-- Inversion: the member loop only runs after every skip/failure guard, and
then visits exactly the modified members, in account-page order. -/
theorem processOneVo_processed_inv (env : VoEnv) (v : String)
    (rs : List (String × Bool)) (h : processOneVo env v = .processed rs) :
    rs = (env.modifiedMembers v).map (fun m => (m, !(memberBodyFails env v m))) := by
  unfold processOneVo at h
  repeat' split at h
  all_goals simp_all

/-- C1: in `process_vos`, when a member of a VO fails while the VO's own
(VO-level) provisioning succeeded and its member loop ran, only the failing
members are appended to the VO's failed-map entry (the failing member among
them), the successfully provisioned members remain in the VO's ok-map entry,
every sibling modified member was still processed (the member results cover
the whole modified-member list), and the failed-map and ok-map entries of
every other VO are exactly what that VO's own processing produces — no
member of this VO leaks into another VO's entries. -/
theorem process_vos_member_failure_isolated (env : VoEnv) (vo_ids : List String)
    (hnd : vo_ids.Nodup) (v : String) (hv : v ∈ vo_ids) (rs : List (String × Bool))
    (hp : processOneVo env v = .processed rs) (m : String) (hm : (m, false) ∈ rs) :
    ∃ okm errm, process_vos env vo_ids = .ok (okm, errm) ∧
      errm v = some (.list (failIds rs)) ∧
      m ∈ failIds rs ∧
      okm v = listValOf (okIds rs) ∧
      rs.map Prod.fst = env.modifiedMembers v ∧
      (∀ w, w ≠ v → errm w = (if w ∈ vo_ids then voErrVal env w else none)) ∧
      (∀ w, w ≠ v → okm w = (if w ∈ vo_ids then voOkVal env w else none)) := by
  have hmf : m ∈ failIds rs :=
    List.mem_map.mpr ⟨(m, false), List.mem_filter.mpr ⟨hm, rfl⟩, rfl⟩
  have hne : failIds rs ≠ [] := by
    intro h
    rw [h] at hmf
    simp at hmf
  refine ⟨_, _, process_vos_spec env vo_ids hnd, ?_, hmf, ?_, ?_, ?_, ?_⟩
  · simp [hv, voErrVal, hp, listValOf, hne]
  · simp [hv, voOkVal, hp]
  · rw [processOneVo_processed_inv env v rs hp, List.map_map]
    exact List.map_id (env.modifiedMembers v)
  · intro w _
    rfl
  · intro w _
    rfl

/-- Witness for C1: a two-VO changeset on `VSC_DATA` where member `vsc40002`
of `gvo00001` fails and sibling `vsc40001` succeeds. -/
theorem process_vos_member_failure_isolated_witness :
    ∃ okm errm, process_vos c1Env ["gvo00002", "gvo00001"] = .ok (okm, errm) ∧
      errm "gvo00001" = some (.list (failIds [("vsc40001", true), ("vsc40002", false)])) ∧
      "vsc40002" ∈ failIds [("vsc40001", true), ("vsc40002", false)] ∧
      okm "gvo00001" = listValOf (okIds [("vsc40001", true), ("vsc40002", false)]) ∧
      ([("vsc40001", true), ("vsc40002", false)] : List (String × Bool)).map Prod.fst =
        c1Env.modifiedMembers "gvo00001" ∧
      (∀ w, w ≠ "gvo00001" → errm w =
        (if w ∈ ["gvo00002", "gvo00001"] then voErrVal c1Env w else none)) ∧
      (∀ w, w ≠ "gvo00001" → okm w =
        (if w ∈ ["gvo00002", "gvo00001"] then voOkVal c1Env w else none)) :=
  process_vos_member_failure_isolated c1Env ["gvo00002", "gvo00001"] (by decide)
    "gvo00001" (by decide) [("vsc40001", true), ("vsc40002", false)] (by decide)
    "vsc40002" (by decide)

/-- C2, evaluated at a failing input: when the VO-level provisioning of
`gvo00002` raises, `process_vos` does move on to the next VO (`gvo00003`
still gets its ok entry), but the failed map does **not** record the VO's
full member list — the source stores `vo.members`, the *uncalled* bound
method (vo.py line 633 lacks the call parentheses of `vo.members()`), so the
entry is a method object rather than the list of member ids.  Moreover, as
soon as the same key already holds a member list (duplicated VO id in the
changeset), appending the method object makes the list monoid's `+` raise an
uncaught `TypeError` that aborts the whole run. -/
theorem process_vos_vo_failure_records_method :
    errAt (process_vos c2Env ["gvo00003", "gvo00002"]) "gvo00002" =
      some (some (.method "gvo00002")) ∧
    (∀ ms : List String,
      errAt (process_vos c2Env ["gvo00003", "gvo00002"]) "gvo00002" ≠
        some (some (.list ms))) ∧
    okAt (process_vos c2Env ["gvo00003", "gvo00002"]) "gvo00003" =
      some (some (.list ["vsc40001"])) ∧
    runRaised (process_vos c2Env ["gvo00002", "gvo00002"]) = some .typeError := by
  refine ⟨by rfl, ?_, by rfl, by rfl⟩
  intro ms h
  rw [show errAt (process_vos c2Env ["gvo00003", "gvo00002"]) "gvo00002" =
    some (some (.method "gvo00002")) from rfl] at h
  simp at h

/-- C9 counterexample: the member loop visits the modified members in the
order the account page returns them, not in sorted-identifier order — with
the response `["vsc40002", "vsc40001"]` the members are processed in exactly
that (unsorted) order, and the ok-map entry accumulates in that order. -/
theorem process_vos_members_processed_unsorted :
    memberProcessOrder c9Env "gvo00001" = ["vsc40002", "vsc40001"] ∧
    ¬ List.Sorted (fun a b => pyStrLe a b = true)
      (memberProcessOrder c9Env "gvo00001") ∧
    okAt (process_vos c9Env ["gvo00001"]) "gvo00001" =
      some (some (.list ["vsc40002", "vsc40001"])) := by
  refine ⟨by rfl, ?_, by rfl⟩
  intro h
  have h2 := List.rel_of_sorted_cons h "vsc40001" (by simp [show memberProcessOrder c9Env "gvo00001" = ["vsc40002", "vsc40001"] from rfl])
  revert h2
  decide

/-- C9 (amended): `process_vos` iterates the VO identifiers in Python's
sorted ascending order (`pySorted`, a sorted permutation of the changeset),
but within each VO the modified members are processed in the order the
system of record returns them, which need not be sorted. -/
theorem process_vos_processing_order (env : VoEnv) (vo_ids : List String)
    (v : String) (rs : List (String × Bool))
    (hp : processOneVo env v = .processed rs) :
    List.Sorted (fun a b => pyStrLe a b = true) (pySorted vo_ids) ∧
    (pySorted vo_ids).Perm vo_ids ∧
    memberProcessOrder env v = env.modifiedMembers v := by
  refine ⟨List.sorted_insertionSort _ _, List.perm_insertionSort _ _, ?_⟩
  rw [memberProcessOrder, hp, processOneVo_processed_inv env v rs hp]
  show List.map Prod.fst (List.map (fun m => (m, !memberBodyFails env v m))
    (env.modifiedMembers v)) = env.modifiedMembers v
  rw [List.map_map]
  exact List.map_id (env.modifiedMembers v)

/-- Witness for the amended C9 on the concrete unsorted response. -/
theorem process_vos_processing_order_witness :
    List.Sorted (fun a b => pyStrLe a b = true) (pySorted ["gvo00002", "gvo00001"]) ∧
    (pySorted ["gvo00002", "gvo00001"]).Perm ["gvo00002", "gvo00001"] ∧
    memberProcessOrder c9Env "gvo00001" = c9Env.modifiedMembers "gvo00001" :=
  process_vos_processing_order c9Env ["gvo00002", "gvo00001"] "gvo00001"
    [("vsc40002", true), ("vsc40001", true)] (by decide)
